import Mathlib

/-!
# Task list (`src/js/script.js`): store, filter engine and validation

A shallow embedding of the rules of `script.js`.

Modelling conventions

* An instant (`Date.prototype.getTime()`) is an `Int`: milliseconds since the epoch, UTC.
* A calendar date is an `Int`: the number of days since 1970-01-01 (day `0` is a Thursday).
* The value of the date input and the `rawDate` field are ISO strings `YYYY-MM-DD`; the
  `date` field is the display string produced by `toLocaleDateString` (`Mon, Jan 26, 2026`).
  Both are represented by the calendar date they spell.  `new Date(s)` reads an ISO
  date-only string as midnight UTC and a display string as midnight local time.  A date
  string whose year has more than four digits is not in the ISO format; the engine then
  falls back to its own parser, which reads it as midnight local time.
* The environment of a call is the clock (`Date.now()`) and the local time-zone offset
  (local time minus UTC, in milliseconds, constant: daylight-saving switches are not modelled).
* `localStorage` holds the last array written by `saveTodos`; the number of writes is counted.
* DOM rendering is not modelled; notifications are recorded in the order they are shown.
* A text is a `String` of Unicode scalar values; its `length` counts UTF-16 code units, as
  in the source.  Lone surrogates are not modelled.
-/

set_option autoImplicit false

namespace TodoApp

/-! ## Dates -/

/-- Milliseconds in a day. -/
def msPerDay : Int := 86400000

/-- The clock and the time zone of the browser. -/
structure Env where
  /-- The value of `Date.now()`: milliseconds since the epoch (UTC). -/
  now : Int
  /-- Local time minus UTC, in milliseconds. -/
  tzOffset : Int
  deriving DecidableEq, Repr

/-- The day number of 10000-01-01, the first date whose year has more than four digits. -/
def firstDayOfYear10000 : Int := 2932897

/-- A date string handed to `new Date(...)`. -/
inductive DateString where
  /-- A string `YYYY-MM-DD` as the date input gives it: the ISO date-only format, read as
  midnight UTC, as long as the year has four digits. -/
  | iso (day : Int)
  /-- A display string such as `Mon, Jan 26, 2026`, read as midnight local time. -/
  | display (day : Int)
  deriving DecidableEq, Repr

/-- The instant `new Date(s).getTime()`. -/
def parseDate (env : Env) : DateString → Int
  | .iso d => if d < firstDayOfYear10000 then d * msPerDay else d * msPerDay - env.tzOffset
  | .display d => d * msPerDay - env.tzOffset

/-- The local calendar date of an instant (what `getFullYear/getMonth/getDate` spell). -/
def localDay (env : Env) (t : Int) : Int := (t + env.tzOffset) / msPerDay

/-- The instant of local midnight of a calendar date. -/
def localMidnight (env : Env) (day : Int) : Int := day * msPerDay - env.tzOffset

/-- The instant after `d.setHours(0, 0, 0, 0)`. -/
def setHoursZero (env : Env) (t : Int) : Int := localMidnight env (localDay env t)

/-- The instant after `d.setDate(d.getDate() + n)`. -/
def addDays (t : Int) (n : Int) : Int := t + n * msPerDay

/-- The value of `getDay()`: the week day of the local date, `0` for Sunday. -/
def getDay (env : Env) (t : Int) : Int := (localDay env t + 4) % 7

/-- Days since the epoch of the civil date `y`-`m`-`d` (`m` from 1 to 12). -/
def daysFromCivil (y m d : Int) : Int :=
  let y1 := if m ≤ 2 then y - 1 else y
  let era := y1 / 400
  let yoe := y1 - era * 400
  let mp := (m + 9) % 12
  let doy := (153 * mp + 2) / 5 + d - 1
  let doe := yoe * 365 + yoe / 4 - yoe / 100 + doy
  era * 146097 + doe - 719468

/-- The civil date (year, month from 1 to 12, day of the month) of a day number. -/
def civilFromDays (z0 : Int) : Int × Int × Int :=
  let z := z0 + 719468
  let era := z / 146097
  let doe := z - era * 146097
  let yoe := (doe - doe / 1460 + doe / 36524 - doe / 146096) / 365
  let y := yoe + era * 400
  let doy := doe - (365 * yoe + yoe / 4 - yoe / 100)
  let mp := (5 * doy + 2) / 153
  let d := doy - (153 * mp + 2) / 5 + 1
  let m := if mp < 10 then mp + 3 else mp - 9
  (if m ≤ 2 then y + 1 else y, m, d)

/-- The instant `new Date(today.getFullYear(), today.getMonth() + 1, 0)`: local midnight of
the last day of the month of `today`. -/
def endOfMonthOf (env : Env) (today : Int) : Int :=
  let ymd := civilFromDays (localDay env today)
  let firstOfNext :=
    if ymd.2.1 = 12 then daysFromCivil (ymd.1 + 1) 1 1 else daysFromCivil ymd.1 (ymd.2.1 + 1) 1
  localMidnight env (firstOfNext - 1)

/-- The display string of `formatDateForDisplay(dateString)` for an ISO input: the local
calendar date of midnight UTC of that day. -/
def formatDateForDisplay (env : Env) (isoDay : Int) : Int :=
  localDay env (parseDate env (.iso isoDay))

/-- The display string of `getFormattedDate(date)`: the local calendar date of the instant. -/
def getFormattedDate (env : Env) (t : Int) : Int := localDay env t

/-! ## Data model -/

/-- A task record. -/
structure Todo where
  id : Int
  text : String
  /-- The display-formatted date string. -/
  date : Int
  /-- The ISO date string; `none` when the record has no `rawDate` field (seed tasks). -/
  rawDate : Option Int
  category : String
  completed : Bool
  /-- The ISO timestamp string, as an instant. -/
  createdAt : Int
  deriving DecidableEq, Repr

/-- The filter selection `currentFilter`. -/
structure Filter where
  status : String
  category : String
  date : String
  deriving DecidableEq, Repr

/-- The module state: the array `todos`, the `todos` slot of `localStorage`, the number of
calls of `saveTodos`, and the notifications shown so far. -/
structure Store where
  todos : List Todo
  storage : Option (List Todo)
  saves : Nat
  notifications : List String
  deriving DecidableEq, Repr

/-- The function `saveTodos`. -/
def saveTodos (s : Store) : Store :=
  { s with storage := some s.todos, saves := s.saves + 1 }

/-- The function `showNotification`. -/
def showNotification (msg : String) (s : Store) : Store :=
  { s with notifications := s.notifications ++ [msg] }

/-! ## Filter engine -/

/-- The string `todo.rawDate || todo.date`. -/
def dueString (todo : Todo) : DateString :=
  match todo.rawDate with
  | some d => .iso d
  | none => .display todo.date

/-- The callback of `todos.filter` in `filterTodos`. -/
def keepTodo (env : Env) (currentFilter : Filter) (todo : Todo) : Bool :=
  if currentFilter.status ≠ "all" ∧ currentFilter.status = "completed" ∧ todo.completed = false then
    false
  else if currentFilter.status ≠ "all" ∧ currentFilter.status = "pending" ∧ todo.completed = true then
    false
  else if currentFilter.category ≠ "all" ∧ todo.category ≠ currentFilter.category then
    false
  else if currentFilter.date ≠ "all" then
    let todoDate := parseDate env (dueString todo)
    let today := setHoursZero env env.now
    let tomorrow := addDays today 1
    let endOfWeek := addDays today (7 - getDay env today)
    let endOfMonth := endOfMonthOf env today
    if currentFilter.date = "today" then
      if todoDate ≠ today then false else true
    else if currentFilter.date = "tomorrow" then
      if todoDate ≠ tomorrow then false else true
    else if currentFilter.date = "week" then
      if todoDate < today ∨ todoDate > endOfWeek then false else true
    else if currentFilter.date = "month" then
      if todoDate < today ∨ todoDate > endOfMonth then false else true
    else if currentFilter.date = "overdue" then
      if todoDate ≥ today ∨ todo.completed = true then false else true
    else true
  else true

/-- The function `filterTodos`. -/
def filterTodos (env : Env) (currentFilter : Filter) (todos : List Todo) : List Todo :=
  todos.filter (keepTodo env currentFilter)

/-! ## Validation -/

/-- White space and line terminators, the characters removed by `String.prototype.trim`. -/
def isJsWhiteSpace (c : Char) : Bool :=
  let n := c.toNat
  n = 9 || n = 10 || n = 11 || n = 12 || n = 13 || n = 32 || n = 160 || n = 5760 ||
    (8192 ≤ n && n ≤ 8202) || n = 8232 || n = 8233 || n = 8239 || n = 8287 || n = 12288 ||
    n = 65279

/-- The method `String.prototype.trim`. -/
def jsTrim (s : String) : String :=
  ⟨((s.data.dropWhile isJsWhiteSpace).reverse.dropWhile isJsWhiteSpace).reverse⟩

/-- The number of UTF-16 code units of a character. -/
def utf16Units (c : Char) : Nat := if c.toNat < 65536 then 1 else 2

/-- The property `length` of a string: its number of UTF-16 code units. -/
def jsLength (s : String) : Nat := (s.data.map utf16Units).sum

/-- The outcome of `validateText`: `ok` when it returns `true`, otherwise the error it
displays (`Task description is required`, `Task description must be at least 3 characters`). -/
inductive TextCheck where
  | ok
  | empty
  | tooShort
  deriving DecidableEq, Repr

/-- The outcome of `validateDate`: `ok` when it returns `true`, otherwise the error it
displays (`Due date is required`, `Due date cannot be in the past`). -/
inductive DateCheck where
  | ok
  | missing
  | pastDate
  deriving DecidableEq, Repr

/-- The boolean returned by `validateText`. -/
def TextCheck.valid : TextCheck → Bool
  | .ok => true
  | _ => false

/-- The boolean returned by `validateDate`. -/
def DateCheck.valid : DateCheck → Bool
  | .ok => true
  | _ => false

/-- The function `validateText`, on the value of the text input. -/
def validateText (value : String) : TextCheck :=
  let text := jsTrim value
  if text = "" then .empty
  else if jsLength text < 3 then .tooShort
  else .ok

/-- The function `validateDate`, on the value of the date input (`none` for the empty
string, `some d` for the ISO string of day `d`). -/
def validateDate (env : Env) (value : Option Int) : DateCheck :=
  match value with
  | none => .missing
  | some d =>
    let selectedDate := parseDate env (.iso d)
    let today := setHoursZero env env.now
    if selectedDate < today then .pastDate else .ok

/-! ## Task store -/

/-- The values of the form controls read by `handleAddTodo`. -/
structure Form where
  text : String
  /-- The value of the date input: `none` for the empty string. -/
  date : Option Int
  category : String
  deriving DecidableEq, Repr

/-- The function `handleAddTodo`. -/
def handleAddTodo (env : Env) (form : Form) (s : Store) : Store :=
  let isTextValid := (validateText form.text).valid
  let isDateValid := (validateDate env form.date).valid
  if !isTextValid || !isDateValid then s
  else
    match form.date with
    | none => s -- not reached: `validateDate` rejects the empty value
    | some date =>
      let newTodo : Todo :=
        { id := env.now
          text := jsTrim form.text
          date := formatDateForDisplay env date
          rawDate := some date
          category := form.category
          completed := false
          createdAt := env.now }
      showNotification "Task added successfully!" (saveTodos { s with todos := s.todos ++ [newTodo] })

/-- The method `Array.prototype.findIndex`; `none` stands for `-1`. -/
def findIndex {α : Type} (p : α → Bool) : List α → Option Nat
  | [] => none
  | x :: xs => if p x then some 0 else (findIndex p xs).map (· + 1)

/-- Update of the element at an index, the rest of the array untouched. -/
def modifyAt {α : Type} (f : α → α) : Nat → List α → List α
  | _, [] => []
  | 0, x :: xs => f x :: xs
  | n + 1, x :: xs => x :: modifyAt f n xs

/-- The assignment `todo.completed = !todo.completed`. -/
def flipCompleted (todo : Todo) : Todo := { todo with completed := !todo.completed }

/-- The text of the notification of `toggleTodoStatus`. -/
def toggleMessage (todos : List Todo) (todoIndex : Nat) : String :=
  match todos.get? todoIndex with
  | some todo => if todo.completed then "Task completed" else "Task marked as pending"
  | none => "Task marked as pending"

/-- The function `toggleTodoStatus`. -/
def toggleTodoStatus (id : Int) (s : Store) : Store :=
  match findIndex (fun todo => decide (todo.id = id)) s.todos with
  | some todoIndex =>
    let s1 := saveTodos { s with todos := modifyAt flipCompleted todoIndex s.todos }
    showNotification (toggleMessage s1.todos todoIndex) s1
  | none => s

/-- How a call ends: it returns, or it throws an error of the given name. -/
inductive Completion (α : Type) where
  | normal (value : α)
  | thrown (error : String)
  deriving DecidableEq, Repr

/-- A call of `toggleTodoStatus` as seen by its caller.  The body has no `throw` statement,
and none of its operations throws, so every call returns. -/
def callToggleTodoStatus (id : Int) (s : Store) : Completion Store :=
  .normal (toggleTodoStatus id s)

/-- The function `deleteTodo`. -/
def deleteTodo (id : Int) (s : Store) : Store :=
  showNotification "Task deleted"
    (saveTodos { s with todos := s.todos.filter (fun todo => decide (todo.id ≠ id)) })

/-- The function `deleteCompletedTodos`. -/
def deleteCompletedTodos (s : Store) : Store :=
  let initialLength := s.todos.length
  let s1 := { s with todos := s.todos.filter (fun todo => !todo.completed) }
  if s1.todos.length < initialLength then
    showNotification "Completed tasks deleted" (saveTodos s1)
  else
    showNotification "No completed tasks to delete" s1

/-- The function `deleteAllTodos`. -/
def deleteAllTodos (s : Store) : Store :=
  showNotification "All tasks deleted" (saveTodos { s with todos := [] })

/-- The sample tasks of `loadTodos`. -/
def sampleTodos (env : Env) : List Todo :=
  [ { id := 1, text := "Complete SEFC assignment", date := getFormattedDate env env.now,
      rawDate := none, category := "work", completed := false, createdAt := env.now },
    { id := 2, text := "Buy groceries", date := getFormattedDate env (env.now + 86400000),
      rawDate := none, category := "shopping", completed := false, createdAt := env.now },
    { id := 3, text := "Morning workout", date := getFormattedDate env env.now,
      rawDate := none, category := "health", completed := true, createdAt := env.now } ]

/-- The state after the module is loaded: `todos` is the stored array, or empty. -/
def initialStore (storage : Option (List Todo)) : Store :=
  { todos := storage.getD [], storage := storage, saves := 0, notifications := [] }

/-- The function `loadTodos`. -/
def loadTodos (env : Env) (s : Store) : Store :=
  if s.todos.length = 0 then saveTodos { s with todos := sampleTodos env } else s

/-! ## The rules of the specification -/

/-- The three status selections of the specification. -/
inductive StatusChoice where
  | all
  | completed
  | pending
  deriving DecidableEq, Repr

/-- The value of the status selection in `currentFilter.status`. -/
def StatusChoice.value : StatusChoice → String
  | .all => "all"
  | .completed => "completed"
  | .pending => "pending"

/-- The status rule as the specification words it: `completed` keeps `completed = true`,
`pending` keeps `completed = false`, `all` keeps everything. -/
def statusRule : StatusChoice → Todo → Bool
  | .all, _ => true
  | .completed, todo => todo.completed
  | .pending, todo => !todo.completed

/-- The category rule as the specification words it: exact match against the selected
category unless the selection is `all`. -/
def categoryRule (selected : String) (todo : Todo) : Bool :=
  decide (selected = "all") || decide (todo.category = selected)

/-- The calendar date a task is due: the date its `rawDate` spells, or the date its display
string spells when it has no `rawDate`. -/
def dueDay (todo : Todo) : Int := todo.rawDate.getD todo.date

/-- The calendar date of today in local time. -/
def todayDay (env : Env) : Int := localDay env env.now

/-- The week day of a calendar date, `0` for Sunday. -/
def weekday (day : Int) : Int := (day + 4) % 7

/-- The week rule as the specification words it: from today to the Saturday of the current
week, `today + (6 - weekday today)`. -/
def weekRuleSpec (env : Env) (todo : Todo) : Bool :=
  decide (todayDay env ≤ dueDay todo ∧ dueDay todo ≤ todayDay env + (6 - weekday (todayDay env)))

/-- The week rule of the code for dates read in local time: from today to the next Sunday,
`today + (7 - weekday today)`. -/
def weekRuleCode (env : Env) (todo : Todo) : Bool :=
  decide (todayDay env ≤ dueDay todo ∧ dueDay todo ≤ todayDay env + (7 - weekday (todayDay env)))

/-- The overdue rule as the specification words it: due strictly before today and not
completed. -/
def overdueRuleSpec (env : Env) (todo : Todo) : Bool :=
  decide (dueDay todo < todayDay env) && !todo.completed

/-- The today rule as the specification words it: due on the calendar date of today. -/
def todayRuleSpec (env : Env) (todo : Todo) : Bool :=
  decide (dueDay todo = todayDay env)

/-! ## Sample environments and stores -/

/-- Monday 2026-01-26, 10:00 local time, at UTC+7. -/
def envJakarta : Env := { now := 20479 * 86400000 + 3 * 3600000, tzOffset := 7 * 3600000 }

/-- The store of a first visit: the three sample tasks. -/
def seedStore : Store := loadTodos envJakarta (initialStore none)

/-- The second sample task, as created on Monday 2026-01-26 at 10:00 (UTC+7). -/
def groceries : Todo :=
  { id := 2, text := "Buy groceries", date := 20480, rawDate := none, category := "shopping",
    completed := false, createdAt := 20479 * 86400000 + 3 * 3600000 }

/-! ## Dates read in two time zones -/

/-- Monday 2026-01-26, 10:00 local time, at UTC-5. -/
def envNewYork : Env := { now := 20479 * 86400000 + 15 * 3600000, tzOffset := -(5 * 3600000) }

/-- Saturday 2026-01-24, 10:00 local time, at UTC-5. -/
def envNewYorkSaturday : Env :=
  { now := 20477 * 86400000 + 15 * 3600000, tzOffset := -(5 * 3600000) }

/-- One minute after `envNewYorkSaturday`. -/
def envNewYorkSaturdayLater : Env :=
  { now := 20477 * 86400000 + 15 * 3600000 + 60000, tzOffset := -(5 * 3600000) }

/-- Sunday 2026-01-25, 10:00, at UTC. -/
def envUtcSunday : Env := { now := 20478 * 86400000 + 10 * 3600000, tzOffset := 0 }

/-- Nine tasks, one due on each day from Sunday 2026-01-25 to Monday 2026-02-02. -/
def nineDays : List Todo :=
  [20478, 20479, 20480, 20481, 20482, 20483, 20484, 20485, 20486].map
    (fun d => { id := d, text := "Daily task", date := d, rawDate := some d,
                category := "work", completed := false, createdAt := 0 })

/-- Saturday 2026-01-31, 10:00 local time, at UTC+7. -/
def envJakartaSaturday : Env :=
  { now := 20484 * 86400000 + 3 * 3600000, tzOffset := 7 * 3600000 }

/-- The store of a first visit on Saturday 2026-01-31 (UTC+7): the three sample tasks, the
second one due on Sunday 2026-02-01. -/
def saturdayStore : Store := loadTodos envJakartaSaturday (initialStore none)

/-- The sample store after the user adds `Buy milk`, due today (Monday 2026-01-26, UTC+7). -/
def jakartaStore : Store :=
  handleAddTodo envJakarta { text := "Buy milk", date := some 20479, category := "shopping" }
    seedStore

/-- The store `jakartaStore` after a second submission within the same millisecond. -/
def jakartaStoreTwice : Store :=
  handleAddTodo envJakarta { text := "Gym", date := some 20480, category := "health" }
    jakartaStore

/-- A store built on Saturday 2026-01-24 at UTC-5: the sample tasks are deleted, then
`Buy milk` due Monday 2026-01-26 and `Gym` due Sunday 2026-01-25 are added. -/
def newYorkStore : Store :=
  handleAddTodo envNewYorkSaturdayLater { text := "Gym", date := some 20478, category := "health" }
    (handleAddTodo envNewYorkSaturday
      { text := "Buy milk", date := some 20479, category := "shopping" }
      (deleteAllTodos (loadTodos envNewYorkSaturday (initialStore none))))

/-! ## Auxiliary facts -/

theorem localDay_localMidnight (env : Env) (day : Int) :
    localDay env (localMidnight env day) = day := by
  unfold localDay localMidnight msPerDay
  omega

theorem getDay_setHoursZero (env : Env) (t : Int) :
    getDay env (setHoursZero env t) = weekday (localDay env t) := by
  unfold getDay setHoursZero weekday
  rw [localDay_localMidnight]

theorem parseDate_dueString_local (env : Env) (todo : Todo)
    (h : todo.rawDate = none ∨ env.tzOffset = 0) :
    parseDate env (dueString todo) = localMidnight env (dueDay todo) := by
  unfold dueString dueDay localMidnight
  cases hr : todo.rawDate with
  | none => simp [parseDate]
  | some d =>
    rcases h with h | h
    · rw [hr] at h; cases h
    · simp only [parseDate, h, Option.getD_some]
      split <;> omega

theorem jsLength_eq_zero_iff (s : String) : jsLength s = 0 ↔ s = "" := by
  cases s with
  | mk data =>
    cases data with
    | nil => simp [jsLength]
    | cons c cs =>
      constructor
      · intro h
        have hc : 1 ≤ utf16Units c := by unfold utf16Units; split <;> omega
        simp [jsLength] at h
        omega
      · intro h
        have hd := congrArg String.data h
        simp at hd

theorem findIndex_eq_none {α : Type} (p : α → Bool) (l : List α)
    (h : ∀ x ∈ l, p x = false) : findIndex p l = none := by
  induction l with
  | nil => rfl
  | cons x xs ih =>
    have hx : p x = false := h x (List.mem_cons_self x xs)
    have hxs : ∀ y ∈ xs, p y = false := fun y hy => h y (List.mem_cons_of_mem x hy)
    simp [findIndex, hx, ih hxs]

theorem findIndex_append_cons {α : Type} (p : α → Bool) (a : List α) (t : α) (b : List α)
    (ha : ∀ x ∈ a, p x = false) (ht : p t = true) :
    findIndex p (a ++ t :: b) = some a.length := by
  induction a with
  | nil => simp [findIndex, ht]
  | cons x xs ih =>
    have hx : p x = false := ha x (List.mem_cons_self x xs)
    have hxs : ∀ y ∈ xs, p y = false := fun y hy => ha y (List.mem_cons_of_mem x hy)
    simp [findIndex, hx, ih hxs]

theorem findIndex_split {α : Type} (p : α → Bool) (l : List α) :
    (∀ x ∈ l, p x = false) ∨
      ∃ a t b, l = a ++ t :: b ∧ (∀ x ∈ a, p x = false) ∧ p t = true := by
  induction l with
  | nil => left; intro x hx; cases hx
  | cons x xs ih =>
    by_cases hx : p x = true
    · right
      refine ⟨[], x, xs, rfl, ?_, hx⟩
      intro y hy
      exact absurd hy (List.not_mem_nil y)
    · have hx0 : p x = false := by simpa using hx
      rcases ih with h | ⟨a, t, b, hl, ha, ht⟩
      · left
        intro y hy
        rcases List.mem_cons.mp hy with rfl | hy
        · exact hx0
        · exact h y hy
      · right
        refine ⟨x :: a, t, b, by rw [hl]; rfl, ?_, ht⟩
        intro y hy
        rcases List.mem_cons.mp hy with rfl | hy
        · exact hx0
        · exact ha y hy

theorem modifyAt_append_cons {α : Type} (f : α → α) (a : List α) (t : α) (b : List α) :
    modifyAt f a.length (a ++ t :: b) = a ++ f t :: b := by
  induction a with
  | nil => rfl
  | cons x xs ih => simp [modifyAt, ih]

theorem getAt_append_cons {α : Type} (a : List α) (t : α) (b : List α) :
    (a ++ t :: b).get? a.length = some t := by
  induction a with
  | nil => rfl
  | cons x xs ih => simpa using ih

/-- The effect of `toggleTodoStatus` when the first task with the given id is `t`. -/
theorem toggleTodoStatus_split (id : Int) (s : Store) (a : List Todo) (t : Todo) (b : List Todo)
    (hl : s.todos = a ++ t :: b) (ha : ∀ x ∈ a, x.id ≠ id) (ht : t.id = id) :
    toggleTodoStatus id s =
      { todos := a ++ flipCompleted t :: b
        storage := some (a ++ flipCompleted t :: b)
        saves := s.saves + 1
        notifications := s.notifications ++
          [if t.completed then "Task marked as pending" else "Task completed"] } := by
  have hidx : findIndex (fun todo : Todo => decide (todo.id = id)) s.todos = some a.length := by
    rw [hl]
    apply findIndex_append_cons
    · intro x hx; simpa using ha x hx
    · simpa using ht
  unfold toggleTodoStatus
  rw [hidx]
  simp only [saveTodos, showNotification, toggleMessage, hl, modifyAt_append_cons,
    getAt_append_cons, flipCompleted]
  cases t.completed <;> simp

/-- The effect of `toggleTodoStatus` when no task has the given id. -/
theorem toggleTodoStatus_absent (id : Int) (s : Store) (h : ∀ x ∈ s.todos, x.id ≠ id) :
    toggleTodoStatus id s = s := by
  have hidx : findIndex (fun todo : Todo => decide (todo.id = id)) s.todos = none := by
    apply findIndex_eq_none
    intro x hx; simpa using h x hx
  unfold toggleTodoStatus
  rw [hidx]

/-! ## Claims -/

/-- C1: with the date bucket `all`, `filterTodos` returns exactly the tasks that satisfy the
status rule and the category rule, in their original order; the selection
completed / all / all returns exactly the completed tasks, in their original order. -/
theorem C1_filter_status_category (env : Env) (status : StatusChoice) (category : String)
    (todos : List Todo) :
    filterTodos env { status := status.value, category := category, date := "all" } todos =
        todos.filter (fun todo => statusRule status todo && categoryRule category todo) ∧
      filterTodos env { status := "completed", category := "all", date := "all" } todos =
        todos.filter (fun todo => todo.completed) := by
  constructor
  · unfold filterTodos
    apply List.filter_congr
    intro todo _
    cases status <;> cases hc : todo.completed <;>
      by_cases h1 : category = "all" <;> by_cases h2 : todo.category = category <;>
      simp [keepTodo, statusRule, categoryRule, StatusChoice.value, hc, h1, h2]
  · unfold filterTodos
    apply List.filter_congr
    intro todo _
    cases hc : todo.completed <;> simp [keepTodo, hc]

/-- C6: `validateText` reports `empty` when the trimmed text is empty, `tooShort` when its
trimmed length is 1 or 2 and `ok` when it is at least 3 (the trimmed text is empty exactly
when its length is 0); when `validateText` rejects the text, `handleAddTodo` leaves the store
unchanged. -/
theorem C6_validateText_rejects_atomically (value : String) (env : Env) (date : Option Int)
    (category : String) (s : Store) :
    (jsTrim value = "" ↔ jsLength (jsTrim value) = 0) ∧
      (jsTrim value = "" → validateText value = .empty) ∧
      (jsLength (jsTrim value) = 1 ∨ jsLength (jsTrim value) = 2 →
        validateText value = .tooShort) ∧
      (3 ≤ jsLength (jsTrim value) → validateText value = .ok) ∧
      (validateText value ≠ .ok →
        handleAddTodo env { text := value, date := date, category := category } s = s) := by
  have h0 := jsLength_eq_zero_iff (jsTrim value)
  refine ⟨h0.symm, ?_, ?_, ?_, ?_⟩
  · intro h
    simp [validateText, h]
  · intro h
    have hne : jsTrim value ≠ "" := by
      intro he
      have := h0.mpr he
      omega
    have hlt : jsLength (jsTrim value) < 3 := by omega
    simp [validateText, hne, hlt]
  · intro h
    have hne : jsTrim value ≠ "" := by
      intro he
      have := h0.mpr he
      omega
    have hlt : ¬ jsLength (jsTrim value) < 3 := by omega
    simp [validateText, hne, hlt]
  · intro h
    have hv : (validateText value).valid = false := by
      cases hr : validateText value with
      | ok => exact absurd hr h
      | empty => rfl
      | tooShort => rfl
    simp [handleAddTodo, hv]

/-- Witness of C6: a blank text is rejected as empty, `Hi` is rejected as too short and
adding it changes nothing, `Hi!` is accepted. -/
theorem C6_validateText_witness :
    validateText "   " = .empty ∧ validateText "Hi" = .tooShort ∧ validateText "Hi!" = .ok ∧
      handleAddTodo envJakarta { text := "Hi", date := some 20479, category := "work" }
        seedStore = seedStore :=
  ⟨(C6_validateText_rejects_atomically "   " envJakarta (some 20479) "work" seedStore).2.1
      (by decide),
    (C6_validateText_rejects_atomically "Hi" envJakarta (some 20479) "work" seedStore).2.2.1
      (by decide),
    (C6_validateText_rejects_atomically "Hi!" envJakarta (some 20479) "work" seedStore).2.2.2.1
      (by decide),
    (C6_validateText_rejects_atomically "Hi" envJakarta (some 20479) "work" seedStore).2.2.2.2
      (by decide)⟩

/-- C8: `deleteCompletedTodos` keeps exactly the pending tasks, in their original order; the
number of tasks removed is the number of completed tasks; when no task is completed the
store and the persisted slot are unchanged and nothing is written; the slot is written
(once, with the new array) exactly when at least one task was removed. -/
theorem C8_deleteCompleted (s : Store) :
    (deleteCompletedTodos s).todos = s.todos.filter (fun todo => !todo.completed) ∧
      (deleteCompletedTodos s).todos.length + s.todos.countP (fun todo => todo.completed) =
        s.todos.length ∧
      s.todos.length - (deleteCompletedTodos s).todos.length =
        s.todos.countP (fun todo => todo.completed) ∧
      (s.todos.countP (fun todo => todo.completed) = 0 →
        (deleteCompletedTodos s).todos = s.todos ∧
          (deleteCompletedTodos s).storage = s.storage ∧
          (deleteCompletedTodos s).saves = s.saves) ∧
      (0 < s.todos.countP (fun todo => todo.completed) →
        (deleteCompletedTodos s).storage = some (deleteCompletedTodos s).todos ∧
          (deleteCompletedTodos s).saves = s.saves + 1) ∧
      ((deleteCompletedTodos s).saves ≠ s.saves →
        0 < s.todos.countP (fun todo => todo.completed)) := by
  have hlen : (s.todos.filter (fun todo => !todo.completed)).length +
      s.todos.countP (fun todo => todo.completed) = s.todos.length := by
    induction s.todos with
    | nil => rfl
    | cons x xs ih =>
      cases hx : x.completed <;> simp [List.filter, List.countP_cons, hx] <;> omega
  have htodos : (deleteCompletedTodos s).todos = s.todos.filter (fun todo => !todo.completed) := by
    unfold deleteCompletedTodos
    simp only [saveTodos, showNotification]
    split <;> rfl
  refine ⟨htodos, ?_, ?_, ?_, ?_, ?_⟩
  · rw [htodos]; omega
  · rw [htodos]; omega
  · intro h0
    have hl : ¬ (s.todos.filter (fun todo => !todo.completed)).length < s.todos.length := by
      omega
    have hall : s.todos.filter (fun todo => !todo.completed) = s.todos := by
      apply List.filter_eq_self.mpr
      intro x hx
      have := (List.countP_eq_zero.mp h0) x hx
      simpa using this
    refine ⟨by rw [htodos, hall], ?_, ?_⟩ <;>
      simp [deleteCompletedTodos, showNotification, hl]
  · intro hpos
    have hl : (s.todos.filter (fun todo => !todo.completed)).length < s.todos.length := by
      omega
    constructor <;> simp [deleteCompletedTodos, showNotification, saveTodos, hl]
  · intro hne
    by_contra hc
    have hl : ¬ (s.todos.filter (fun todo => !todo.completed)).length < s.todos.length := by
      omega
    apply hne
    simp [deleteCompletedTodos, showNotification, hl]

/-- Witness of C8: on the sample store one task is completed; it is removed and the slot is
written once more; once it is gone a second call changes nothing and writes nothing. -/
theorem C8_deleteCompleted_witness :
    (0 < seedStore.todos.countP (fun todo => todo.completed) ∧
        (deleteCompletedTodos seedStore).storage = some (deleteCompletedTodos seedStore).todos ∧
        (deleteCompletedTodos seedStore).saves = seedStore.saves + 1) ∧
      ((deleteCompletedTodos seedStore).todos.countP (fun todo => todo.completed) = 0 ∧
        (deleteCompletedTodos (deleteCompletedTodos seedStore)).todos =
          (deleteCompletedTodos seedStore).todos ∧
        (deleteCompletedTodos (deleteCompletedTodos seedStore)).storage =
          (deleteCompletedTodos seedStore).storage ∧
        (deleteCompletedTodos (deleteCompletedTodos seedStore)).saves =
          (deleteCompletedTodos seedStore).saves) ∧
      0 < seedStore.todos.countP (fun todo => todo.completed) :=
  ⟨⟨by decide, (C8_deleteCompleted seedStore).2.2.2.2.1 (by decide)⟩,
    ⟨by decide, (C8_deleteCompleted (deleteCompletedTodos seedStore)).2.2.2.1 (by decide)⟩,
    (C8_deleteCompleted seedStore).2.2.2.2.2 (by decide)⟩

/-- C9: toggling the same id twice gives back the original array of tasks, every task and
every field in the original order, also when several tasks share the id and when no task
has it; the persisted slot then holds the original array, or nothing was touched at all. -/
theorem C9_toggle_twice (id : Int) (s : Store) :
    (toggleTodoStatus id (toggleTodoStatus id s)).todos = s.todos ∧
      ((toggleTodoStatus id (toggleTodoStatus id s)).storage = some s.todos ∨
        toggleTodoStatus id (toggleTodoStatus id s) = s) := by
  rcases findIndex_split (fun todo : Todo => decide (todo.id = id)) s.todos with h | h
  · have habs : ∀ x ∈ s.todos, x.id ≠ id := fun x hx => by simpa using h x hx
    rw [toggleTodoStatus_absent id s habs, toggleTodoStatus_absent id s habs]
    exact ⟨rfl, Or.inr rfl⟩
  · obtain ⟨a, t, b, hl, ha, ht⟩ := h
    have ha1 : ∀ x ∈ a, x.id ≠ id := fun x hx => by simpa using ha x hx
    have ht1 : t.id = id := by simpa using ht
    rw [toggleTodoStatus_split id s a t b hl ha1 ht1]
    rw [toggleTodoStatus_split id _ a (flipCompleted t) b rfl ha1 ht1]
    rw [hl]
    constructor
    · simp [flipCompleted]
    · left
      simp [flipCompleted]

/-- Counterexample to C10: no sample task has id 99, and toggling id 99 returns normally,
the store unchanged; no error is thrown. -/
theorem C10_toggle_absent_returns :
    (∀ todo ∈ seedStore.todos, todo.id ≠ 99) ∧
      callToggleTodoStatus 99 seedStore = Completion.normal seedStore ∧
      ¬ ∃ error, callToggleTodoStatus 99 seedStore = Completion.thrown error := by
  refine ⟨by decide, by decide, ?_⟩
  rintro ⟨error, h⟩
  cases h

/-- C10 as amended: for an id that no task has, `toggleTodoStatus` returns normally and
leaves the whole state unchanged (nothing written, no notification); for an id that is
present it returns normally with the `completed` flag of the first task with that id
flipped, every other task untouched, and the array written to the slot. -/
theorem C10_toggle_amended (id : Int) (s : Store) :
    ((∀ todo ∈ s.todos, todo.id ≠ id) → callToggleTodoStatus id s = Completion.normal s) ∧
      (∀ (a : List Todo) (t : Todo) (b : List Todo), s.todos = a ++ t :: b →
        (∀ todo ∈ a, todo.id ≠ id) → t.id = id →
        callToggleTodoStatus id s = Completion.normal
          { todos := a ++ { t with completed := !t.completed } :: b
            storage := some (a ++ { t with completed := !t.completed } :: b)
            saves := s.saves + 1
            notifications := s.notifications ++
              [if t.completed then "Task marked as pending" else "Task completed"] }) := by
  constructor
  · intro h
    unfold callToggleTodoStatus
    rw [toggleTodoStatus_absent id s h]
  · intro a t b hl ha ht
    unfold callToggleTodoStatus
    rw [toggleTodoStatus_split id s a t b hl ha ht]
    rfl

/-- Witness of C10 as amended: on the sample store, id 99 is absent and the call returns the
store unchanged; id 2 is the second task and the call returns with that task completed. -/
theorem C10_toggle_amended_witness :
    callToggleTodoStatus 99 seedStore = Completion.normal seedStore ∧
      callToggleTodoStatus 2 seedStore = Completion.normal
        { todos := seedStore.todos.take 1 ++
            { groceries with completed := !groceries.completed } :: seedStore.todos.drop 2
          storage := some (seedStore.todos.take 1 ++
            { groceries with completed := !groceries.completed } :: seedStore.todos.drop 2)
          saves := seedStore.saves + 1
          notifications := seedStore.notifications ++
            [if groceries.completed then "Task marked as pending" else "Task completed"] } :=
  ⟨(C10_toggle_amended 99 seedStore).1 (by decide),
    (C10_toggle_amended 2 seedStore).2 (seedStore.todos.take 1) groceries
      (seedStore.todos.drop 2) (by decide) (by decide) (by decide)⟩

/-- C2 on the code: at UTC-5 on Monday 2026-01-26, the overdue bucket lists `Buy milk`, due
that Monday and pending, next to `Gym`, due the day before; by the rule of the specification
only `Gym` is overdue. -/
theorem C2_overdue_lists_task_due_today :
    todayDay envNewYork = 20479 ∧
      newYorkStore.todos.map (fun todo => (todo.text, dueDay todo, todo.completed)) =
        [("Buy milk", 20479, false), ("Gym", 20478, false)] ∧
      (filterTodos envNewYork { status := "all", category := "all", date := "overdue" }
        newYorkStore.todos).map (fun todo => todo.text) = ["Buy milk", "Gym"] ∧
      (newYorkStore.todos.filter (overdueRuleSpec envNewYork)).map (fun todo => todo.text) =
        ["Gym"] := by
  decide

/-- C3 on the code: on Saturday 2026-01-31 the week bucket keeps the sample task due on
Sunday 2026-02-01, the next Sunday, which the rule of the specification (week ending on
Saturday) leaves out. -/
theorem C3_week_keeps_next_sunday :
    weekday (todayDay envJakartaSaturday) = 6 ∧
      (filterTodos envJakartaSaturday { status := "all", category := "all", date := "week" }
        saturdayStore.todos).map (fun todo => (todo.text, dueDay todo)) =
        [("Complete SEFC assignment", 20484), ("Buy groceries", 20485),
          ("Morning workout", 20484)] ∧
      (saturdayStore.todos.filter (weekRuleSpec envJakartaSaturday)).map
        (fun todo => (todo.text, dueDay todo)) =
        [("Complete SEFC assignment", 20484), ("Morning workout", 20484)] ∧
      weekday 20485 = 0 ∧
      filterTodos envJakartaSaturday { status := "all", category := "all", date := "week" }
          saturdayStore.todos ≠
        saturdayStore.todos.filter (weekRuleSpec envJakartaSaturday) := by
  decide

theorem keepTodo_week_local (env : Env) (status category : String) (todo : Todo)
    (h : todo.rawDate = none ∨ env.tzOffset = 0) :
    keepTodo env { status := status, category := category, date := "week" } todo =
      (weekRuleCode env todo &&
        keepTodo env { status := status, category := category, date := "all" } todo) := by
  have hp := parseDate_dueString_local env todo h
  have hg := getDay_setHoursZero env env.now
  have hw : (¬ (localMidnight env (dueDay todo) < setHoursZero env env.now ∨
      localMidnight env (dueDay todo) >
        addDays (setHoursZero env env.now) (7 - weekday (localDay env env.now)))) ↔
      (todayDay env ≤ dueDay todo ∧
        dueDay todo ≤ todayDay env + (7 - weekday (todayDay env))) := by
    unfold localMidnight setHoursZero addDays todayDay weekday localMidnight msPerDay
    omega
  unfold keepTodo
  simp only [hp, hg]
  by_cases h1 : status ≠ "all" ∧ status = "completed" ∧ todo.completed = false
  · simp [h1]
  · by_cases h2 : status ≠ "all" ∧ status = "pending" ∧ todo.completed = true
    · simp [h2]
    · by_cases h3 : category ≠ "all" ∧ todo.category ≠ category
      · simp [h3]
      · simp only [h1, h2, h3, if_false]
        by_cases hk : todayDay env ≤ dueDay todo ∧
            dueDay todo ≤ todayDay env + (7 - weekday (todayDay env))
        · have hk1 := hw.mpr hk
          simp [weekRuleCode, hk, hk1]
        · have hk1 : ¬ ¬ (localMidnight env (dueDay todo) < setHoursZero env env.now ∨
              localMidnight env (dueDay todo) >
                addDays (setHoursZero env env.now) (7 - weekday (localDay env env.now))) :=
            fun hc => hk (hw.mp hc)
          have hk2 := Classical.not_not.mp hk1
          simp [weekRuleCode, hk, hk2]

/-- What the week bucket computes for tasks whose due date is read in local time (tasks
that store only the display date, or any task when the time-zone offset is 0): among the
tasks that pass the status and category rules it keeps those with
today ≤ dueDate ≤ today + (7 - weekday today), one day more than the week of the
specification. -/
theorem week_bucket_local (env : Env) (status category : String) (todos : List Todo)
    (h : ∀ todo ∈ todos, todo.rawDate = none ∨ env.tzOffset = 0) :
    filterTodos env { status := status, category := category, date := "week" } todos =
      (filterTodos env { status := status, category := category, date := "all" } todos).filter
        (weekRuleCode env) := by
  unfold filterTodos
  rw [List.filter_filter]
  apply List.filter_congr
  intro todo hmem
  exact keepTodo_week_local env status category todo (h todo hmem)

/-- C4 on the code: at UTC+7 on Monday 2026-01-26, a task added with that Monday as due date
stores `rawDate`, is due today by the rule of the specification, and is left out by the
today bucket, which keeps only the two sample tasks due today. -/
theorem C4_today_misses_added_task :
    todayDay envJakarta = 20479 ∧
      jakartaStore.todos.map (fun todo => (todo.text, todo.rawDate, dueDay todo)) =
        [("Complete SEFC assignment", none, 20479), ("Buy groceries", none, 20480),
          ("Morning workout", none, 20479), ("Buy milk", some 20479, 20479)] ∧
      (jakartaStore.todos.filter (todayRuleSpec envJakarta)).map (fun todo => todo.text) =
        ["Complete SEFC assignment", "Morning workout", "Buy milk"] ∧
      (filterTodos envJakarta { status := "all", category := "all", date := "today" }
        jakartaStore.todos).map (fun todo => todo.text) =
        ["Complete SEFC assignment", "Morning workout"] := by
  decide

/-- C5 on the code: two submissions within one millisecond give two tasks with the same id;
the store grows by one and the new task `Gym` is last, but looking its id up finds
`Buy milk` at index 3, and toggling that id completes `Buy milk`, not `Gym`. -/
theorem C5_add_duplicate_id :
    jakartaStoreTwice.todos.length = jakartaStore.todos.length + 1 ∧
      jakartaStoreTwice.todos.getLast?.map (fun todo => (todo.text, todo.id, todo.completed)) =
        some ("Gym", envJakarta.now, false) ∧
      findIndex (fun todo => decide (todo.id = envJakarta.now)) jakartaStoreTwice.todos =
        some 3 ∧
      (jakartaStoreTwice.todos.get? 3).map (fun todo => todo.text) = some "Buy milk" ∧
      (toggleTodoStatus envJakarta.now jakartaStoreTwice).todos.map
        (fun todo => (todo.text, todo.completed)) =
        [("Complete SEFC assignment", false), ("Buy groceries", false),
          ("Morning workout", true), ("Buy milk", true), ("Gym", false)] := by
  decide

/-- C7 on the code: at UTC-5 on Monday 2026-01-26, `validateDate` reports `pastDate` for the
date of that Monday, and `handleAddTodo` rejects a task due today. -/
theorem C7_validateDate_rejects_today :
    todayDay envNewYork = 20479 ∧
      validateDate envNewYork (some 20479) = .pastDate ∧
      handleAddTodo envNewYork { text := "Buy milk", date := some 20479, category := "shopping" }
        newYorkStore = newYorkStore := by
  decide

/-! ## Where the date rules of the code and of the specification agree -/

theorem due_before_today_iff (env : Env) (todo : Todo)
    (h : todo.rawDate = none ∨ (0 ≤ env.tzOffset ∧ env.tzOffset < msPerDay)) :
    parseDate env (dueString todo) < setHoursZero env env.now ↔ dueDay todo < todayDay env := by
  unfold dueString dueDay todayDay setHoursZero localMidnight
  cases hr : todo.rawDate with
  | none =>
    simp only [parseDate, Option.getD_none]
    unfold msPerDay
    omega
  | some d =>
    rcases h with h | h
    · rw [hr] at h; cases h
    · simp only [parseDate, Option.getD_some]
      unfold msPerDay at *
      split <;> omega

/-- For tasks read in local time, and for every task at an offset from UTC+0 up to (not
including) UTC+24, the overdue bucket is the overdue rule of the specification. -/
theorem overdue_bucket_east (env : Env) (todos : List Todo)
    (h : ∀ todo ∈ todos,
      todo.rawDate = none ∨ (0 ≤ env.tzOffset ∧ env.tzOffset < msPerDay)) :
    filterTodos env { status := "all", category := "all", date := "overdue" } todos =
      todos.filter (overdueRuleSpec env) := by
  unfold filterTodos
  apply List.filter_congr
  intro todo hmem
  have hiff := due_before_today_iff env todo (h todo hmem)
  by_cases hlt : dueDay todo < todayDay env
  · have h1 : ¬ parseDate env (dueString todo) ≥ setHoursZero env env.now := by
      have := hiff.mpr hlt
      omega
    cases hc : todo.completed <;> simp [keepTodo, overdueRuleSpec, hlt, h1, hc]
  · have h1 : parseDate env (dueString todo) ≥ setHoursZero env env.now := by
      have : ¬ parseDate env (dueString todo) < setHoursZero env env.now :=
        fun hc => hlt (hiff.mp hc)
      omega
    simp [keepTodo, overdueRuleSpec, hlt, h1]

/-- For tasks read in local time, the today bucket is the today rule of the specification. -/
theorem today_bucket_local (env : Env) (todos : List Todo)
    (h : ∀ todo ∈ todos, todo.rawDate = none ∨ env.tzOffset = 0) :
    filterTodos env { status := "all", category := "all", date := "today" } todos =
      todos.filter (todayRuleSpec env) := by
  unfold filterTodos
  apply List.filter_congr
  intro todo hmem
  have hp := parseDate_dueString_local env todo (h todo hmem)
  have hiff : localMidnight env (dueDay todo) = setHoursZero env env.now ↔
      dueDay todo = todayDay env := by
    unfold setHoursZero localMidnight todayDay msPerDay
    omega
  by_cases he : dueDay todo = todayDay env
  · have h1 := hiff.mpr he
    rw [he] at h1
    simp [keepTodo, todayRuleSpec, hp, he, h1]
  · have h1 : ¬ localMidnight env (dueDay todo) = setHoursZero env env.now :=
      fun hc => he (hiff.mp hc)
    simp [keepTodo, todayRuleSpec, hp, he, h1]

/-- For tasks that store a `rawDate` (with a year of four digits), at an offset strictly
between UTC+0 and UTC+24, the week bucket is the week rule of the specification: the
window ends on Saturday. -/
theorem week_bucket_rawDate_east (env : Env) (todos : List Todo)
    (hoff : 0 < env.tzOffset ∧ env.tzOffset < msPerDay)
    (h : ∀ todo ∈ todos, ∃ d, todo.rawDate = some d ∧ d < firstDayOfYear10000) :
    filterTodos env { status := "all", category := "all", date := "week" } todos =
      todos.filter (weekRuleSpec env) := by
  unfold filterTodos
  apply List.filter_congr
  intro todo hmem
  obtain ⟨d, hd, hy⟩ := h todo hmem
  have hg := getDay_setHoursZero env env.now
  have hp : parseDate env (dueString todo) = d * msPerDay := by
    simp [dueString, hd, parseDate, hy]
  have hdue : dueDay todo = d := by simp [dueDay, hd]
  have hw : (¬ (d * msPerDay < setHoursZero env env.now ∨
      d * msPerDay > addDays (setHoursZero env env.now) (7 - weekday (localDay env env.now)))) ↔
      (todayDay env ≤ d ∧ d ≤ todayDay env + (6 - weekday (todayDay env))) := by
    unfold setHoursZero addDays todayDay weekday localMidnight
    unfold msPerDay at *
    omega
  by_cases hk : todayDay env ≤ d ∧ d ≤ todayDay env + (6 - weekday (todayDay env))
  · have hk1 := hw.mpr hk
    simp [keepTodo, weekRuleSpec, hp, hg, hdue, hk, hk1]
  · have hk1 : ¬ ¬ (d * msPerDay < setHoursZero env env.now ∨
        d * msPerDay > addDays (setHoursZero env env.now) (7 - weekday (localDay env env.now))) :=
      fun hc => hk (hw.mp hc)
    have hk2 := Classical.not_not.mp hk1
    simp [keepTodo, weekRuleSpec, hp, hg, hdue, hk, hk2]

/-- On Sunday 2026-01-25 at UTC, of nine tasks due on the nine days from that Sunday to
Monday 2026-02-02 the week bucket keeps eight, both Sundays among them. -/
theorem week_bucket_sunday_eight_days :
    weekday (todayDay envUtcSunday) = 0 ∧
      (filterTodos envUtcSunday { status := "all", category := "all", date := "week" }
        nineDays).map dueDay = [20478, 20479, 20480, 20481, 20482, 20483, 20484, 20485] := by
  decide

/-- At an offset from UTC+0 up to (not including) UTC+24, `validateDate` compares calendar
dates: it reports `pastDate` exactly for a date before today. -/
theorem validateDate_east (env : Env) (d : Int)
    (h : 0 ≤ env.tzOffset ∧ env.tzOffset < msPerDay) :
    validateDate env (some d) = if d < todayDay env then .pastDate else .ok := by
  have hiff : parseDate env (.iso d) < setHoursZero env env.now ↔ d < todayDay env := by
    show (if d < firstDayOfYear10000 then d * msPerDay else d * msPerDay - env.tzOffset) <
      setHoursZero env env.now ↔ d < todayDay env
    unfold setHoursZero localMidnight todayDay
    unfold msPerDay at *
    split <;> omega
  unfold validateDate
  by_cases hlt : d < todayDay env
  · simp [hlt, hiff.mpr hlt]
  · have h1 : ¬ parseDate env (.iso d) < setHoursZero env env.now := fun hc => hlt (hiff.mp hc)
    simp [hlt, h1]

/-- At every offset strictly between UTC-24 and UTC+24, a date before today is reported as
`pastDate` and `handleAddTodo` leaves the store unchanged. -/
theorem validateDate_past (env : Env) (d : Int) (text category : String) (s : Store)
    (h : -msPerDay < env.tzOffset ∧ env.tzOffset < msPerDay) (hd : d < todayDay env) :
    validateDate env (some d) = .pastDate ∧
      handleAddTodo env { text := text, date := some d, category := category } s = s := by
  have hlt : parseDate env (.iso d) < setHoursZero env env.now := by
    show (if d < firstDayOfYear10000 then d * msPerDay else d * msPerDay - env.tzOffset) <
      setHoursZero env env.now
    unfold setHoursZero localMidnight
    unfold todayDay at hd
    unfold msPerDay at *
    split <;> omega
  have hv : validateDate env (some d) = .pastDate := by
    simp [validateDate, hlt]
  refine ⟨hv, ?_⟩
  simp [handleAddTodo, hv, DateCheck.valid]

/-- When both validators accept and no stored task has the current time as id,
`handleAddTodo` appends one pending task, and looking its id up finds it, at the last
index. -/
theorem handleAddTodo_fresh_id (env : Env) (text : String) (d : Int) (category : String)
    (s : Store) (hText : validateText text = .ok) (hDate : validateDate env (some d) = .ok)
    (hFresh : ∀ todo ∈ s.todos, todo.id ≠ env.now) :
    (handleAddTodo env { text := text, date := some d, category := category } s).todos =
        s.todos ++ [{ id := env.now, text := jsTrim text, date := formatDateForDisplay env d,
                      rawDate := some d, category := category, completed := false,
                      createdAt := env.now }] ∧
      findIndex (fun todo => decide (todo.id = env.now))
        (handleAddTodo env { text := text, date := some d, category := category } s).todos =
        some s.todos.length := by
  have htodos : (handleAddTodo env { text := text, date := some d, category := category } s).todos =
      s.todos ++ [{ id := env.now, text := jsTrim text, date := formatDateForDisplay env d,
                    rawDate := some d, category := category, completed := false,
                    createdAt := env.now }] := by
    simp [handleAddTodo, hText, hDate, TextCheck.valid, DateCheck.valid, saveTodos,
      showNotification]
  refine ⟨htodos, ?_⟩
  rw [htodos]
  apply findIndex_append_cons
  · intro x hx
    simpa using hFresh x hx
  · simp

end TodoApp
